import Mathlib

/-!
Verification of the attendance ledger and aggregation engine of the
sistema-de-asistencia repository.

Modelling conventions:
* Calendar dates are modelled as natural numbers (day indices).  The source
  stores dates as ISO `YYYY-MM-DD` strings whose lexicographic order agrees
  with chronological order, and advances them by whole days, so the order
  and successor structure is all that the verified code paths use.
* JavaScript strict equality on ids and status strings is modelled by
  decidable equality.
* The remote store (a Supabase table) is modelled as a list of rows; the
  PostgREST `upsert` with an `onConflict` key is modelled row by row:
  a row whose conflict key is already present replaces the stored row(s)
  with that key, otherwise it is appended.
* `Math.round` on non-negative numbers is `jsRound`, rounding half away
  from zero, computed over the rationals.
-/

/-- Status enum from src/types.ts. -/
inductive AttendanceStatus where
  | PRESENT
  | LATE
  | ABSENT
  | JUSTIFIED
deriving DecidableEq

/-- The status-to-integer map built inside saveAttendance
(src/components/AttendanceSheet.tsx lines 197-202). -/
def statusMapNum : AttendanceStatus → Nat
  | .PRESENT => 1
  | .LATE => 2
  | .ABSENT => 3
  | .JUSTIFIED => 4

/-- A row of the attendance table, as built by saveAttendance
(src/components/AttendanceSheet.tsx lines 204-212). -/
structure AttRecord where
  student_id : String
  classroom_id : String
  date : Nat
  status : AttendanceStatus
  attendance_type_id : Nat
  notes : Option String
  created_by : Option String
deriving DecidableEq

/-- The conflict key of the upsert in saveAttendance:
onConflict is the column pair student_id,date
(src/components/AttendanceSheet.tsx line 217). -/
def recKey (r : AttRecord) : String × Nat :=
  (r.student_id, r.date)

/-- One step of the store upsert: a row whose conflict key is present
replaces the stored row(s) with that key, otherwise it is appended. -/
def upsertOne (store : List AttRecord) (r : AttRecord) : List AttRecord :=
  if store.any (fun s => decide (recKey s = recKey r)) then
    store.map (fun s => if recKey s = recKey r then r else s)
  else
    store ++ [r]

/-- The batched upsert issued by saveAttendance
(src/components/AttendanceSheet.tsx lines 215-217). -/
def upsert (store : List AttRecord) (batch : List AttRecord) : List AttRecord :=
  batch.foldl upsertOne store

/-- The conflict key the specification claims for the upsert:
subject (classroom) + person (student) + date. -/
def tripleKey (r : AttRecord) : String × String × Nat :=
  (r.classroom_id, r.student_id, r.date)

/-- One step of an upsert keyed the way the specification describes it,
on (subjectId, personId, date).  Written from the wording of the spec, to
be compared with the upsert of the source. -/
def upsertTripleOne (store : List AttRecord) (r : AttRecord) : List AttRecord :=
  if store.any (fun s => decide (tripleKey s = tripleKey r)) then
    store.map (fun s => if tripleKey s = tripleKey r then r else s)
  else
    store ++ [r]

/-- Batched upsert under the conflict key the specification claims.
Written from the wording of the spec, to be compared with the source. -/
def upsertTriple (store : List AttRecord) (batch : List AttRecord) : List AttRecord :=
  batch.foldl upsertTripleOne store

/-- JavaScript `x || null` applied to a string-map lookup: an absent entry
and an empty string both become null
(src/components/AttendanceSheet.tsx line 210). -/
def jsOrNull : Option String → Option String
  | some s => if s = "" then none else some s
  | none => none

/-- The record list built by saveAttendance from the in-memory attendance
map and notes map (src/components/AttendanceSheet.tsx lines 196-213).
The in-memory maps are modelled as association lists with unique keys. -/
def buildRecords (attendance : List (String × AttendanceStatus))
    (notes : List (String × String)) (classroomId : String) (date : Nat)
    (userId : Option String) : List AttRecord :=
  attendance.map (fun p =>
    { student_id := p.1
      classroom_id := classroomId
      date := date
      status := p.2
      attendance_type_id := statusMapNum p.2
      notes := jsOrNull (List.lookup p.1 notes)
      created_by := userId })

/-- The failure saveAttendance surfaces when the in-memory set is empty
(src/components/AttendanceSheet.tsx lines 188-191: an error toast and an
early return, before any upsert is issued). -/
inductive SaveError where
  | EmptyObservationSet
deriving DecidableEq

/-- saveAttendance (src/components/AttendanceSheet.tsx lines 187-219):
an empty attendance map fails before any store call; otherwise the built
records are upserted with conflict key student_id,date.  The function has
no date validation of any kind. -/
def saveAttendance (store : List AttRecord)
    (attendance : List (String × AttendanceStatus))
    (notes : List (String × String)) (classroomId : String) (date : Nat)
    (userId : Option String) : Except SaveError (List AttRecord) :=
  if attendance.length = 0 then
    .error .EmptyObservationSet
  else
    .ok (upsert store (buildRecords attendance notes classroomId date userId))

/-- goToNextDay (src/components/AttendanceSheet.tsx lines 257-265):
the next calendar day is adopted only when it does not lie past today;
otherwise the selected date is silently left unchanged. -/
def goToNextDay (selectedDate today : Nat) : Nat :=
  let newDate := selectedDate + 1
  if newDate ≤ today then newDate else selectedDate

/-- markAllPresent (src/components/AttendanceSheet.tsx lines 179-185):
the in-memory attendance map is replaced wholesale by one PRESENT entry
per enrolled student; the previous map is not consulted. -/
def markAllPresent (prev : List (String × AttendanceStatus))
    (students : List String) : List (String × AttendanceStatus) :=
  students.map (fun sid => (sid, AttendanceStatus.PRESENT))

/-- Rounding as JavaScript Math.round performs it on the non-negative
numbers arising here: round half up, over the rationals. -/
def jsRound (q : ℚ) : ℤ :=
  ⌊q + 1 / 2⌋

/-- The per-classroom slice of the fetched attendance rows
(src/components/Management.tsx line 433). -/
def classAtt (attendanceData : List AttRecord) (cid : String) : List AttRecord :=
  attendanceData.filter (fun a => decide (a.classroom_id = cid))

/-- The present-equivalent count of a row list: PRESENT or LATE
(src/components/Management.tsx lines 435-437). -/
def presentCount (l : List AttRecord) : Nat :=
  (l.filter (fun a => decide (a.status = .PRESENT ∨ a.status = .LATE))).length

/-- The absent-equivalent count of a row list: ABSENT or JUSTIFIED
(src/components/Management.tsx lines 439-441). -/
def absentCount (l : List AttRecord) : Nat :=
  (l.filter (fun a => decide (a.status = .ABSENT ∨ a.status = .JUSTIFIED))).length

/-- The per-classroom percentage of fetchClassroomStats
(src/components/Management.tsx lines 443-454): present over present plus
absent, times 100, guarded to 0 when nothing is marked, then rounded to
one decimal by Math.round(percentage * 10) / 10. -/
def classroomPercentage (attendanceData : List AttRecord) (cid : String) : ℚ :=
  let ca := classAtt attendanceData cid
  let present := presentCount ca
  let absent := absentCount ca
  let totalMarked := present + absent
  let percentage : ℚ := if totalMarked > 0 then ((present : ℚ) / totalMarked) * 100 else 0
  (jsRound (percentage * 10) : ℚ) / 10

/-- Levels from src/types.ts. -/
inductive Level where
  | Inicial
  | Primaria
  | Secundaria
deriving DecidableEq

/-- Staff roles from src/types.ts. -/
inductive UserRole where
  | Administrador
  | Docente
  | Auxiliar
  | Supervisor
  | Secretaria
deriving DecidableEq

/-- An assignment of a staff member (src/types.ts): either a whole level
or a specific classroom, both optional fields. -/
structure Assignment where
  level : Option Level
  classroomId : Option String
deriving DecidableEq

/-- A classroom as the visibility filter sees it (src/types.ts). -/
structure ClassroomInfo where
  id : String
  level : Level
deriving DecidableEq

/-- The visibility filter of fetchClassrooms
(src/components/Dashboard.tsx lines 91-98): Administrador and Supervisor
see every classroom; anyone else sees a classroom exactly when some
assignment matches its id or its level. -/
def visibleClassrooms (role : UserRole) (assignments : List Assignment)
    (classrooms : List ClassroomInfo) : List ClassroomInfo :=
  if role = .Administrador ∨ role = .Supervisor then
    classrooms
  else
    classrooms.filter (fun c =>
      assignments.any (fun a =>
        decide (a.classroomId = some c.id ∨ a.level = some c.level)))

/-- Report range kinds (src/components/Management.tsx line 390). -/
inductive RangeKind where
  | Dia
  | Semana
  | Bimestre
  | Semestre
  | Personalizado
deriving DecidableEq

/-- The date filter the report query builds
(src/components/Management.tsx lines 418-425 and src/unnamed/part_007
lines 50-56): equality for a one-day range, both bounds for a custom
range with an end date given, and only the lower bound otherwise. -/
def dateFilter (range : RangeKind) (startDate : Nat) (endDate : Option Nat)
    (d : Nat) : Bool :=
  match range, endDate with
  | .Dia, _ => decide (d = startDate)
  | .Personalizado, some e => decide (startDate ≤ d) && decide (d ≤ e)
  | _, _ => decide (startDate ≤ d)

/-- The set of rows a report query fetches for aggregation. -/
def fetchAttendanceForRange (store : List AttRecord) (range : RangeKind)
    (startDate : Nat) (endDate : Option Nat) : List AttRecord :=
  store.filter (fun r => dateFilter range startDate endDate r.date)

/-- Single-letter codes of the bimester table
(src/unnamed/part_004 lines 92-97). -/
inductive Code where
  | P
  | T
  | F
  | J
deriving DecidableEq

/-- The weekday axis of a bimester table (src/unnamed/part_004 lines
108-122): every date from start to end inclusive whose day of week is
neither Sunday nor Saturday.  Day of week is date modulo seven, with the
two excluded residues written as in the source (0 and 6). -/
def weekdayAxis (startD endD : Nat) : List Nat :=
  ((List.range (endD + 1 - startD)).map (fun i => startD + i)).filter
    (fun d => decide (¬ d % 7 = 0) && decide (¬ d % 7 = 6))

/-- The present-day count of one student in the bimester table
(src/unnamed/part_004 line 243): values of the per-date map that are P
or T.  The per-student map is modelled as an association list from date
to code with unique keys. -/
def presentDays (att : List (Nat × Code)) : Nat :=
  (att.filter (fun p => decide (p.2 = .P ∨ p.2 = .T))).length

/-- Whether the per-student map has an entry for a date: the truthiness
test studentAttendance[d] of the source (all code strings are truthy). -/
def hasRecord (att : List (Nat × Code)) (d : Nat) : Bool :=
  att.any (fun p => decide (p.1 = d))

/-- The denominator of the bimester percentage
(src/unnamed/part_004 line 244): the axis days carrying a record. -/
def totalPossible (days : List Nat) (att : List (Nat × Code)) : Nat :=
  (days.filter (fun d => hasRecord att d)).length

/-- The per-student percentage of the bimester table
(src/unnamed/part_004 line 245): Math.round of presentDays over
totalPossible times 100, and 0 when totalPossible is 0. -/
def bimesterPct (days : List Nat) (att : List (Nat × Code)) : ℤ :=
  if totalPossible days att > 0 then
    jsRound (((presentDays att : ℚ) / (totalPossible days att)) * 100)
  else
    0

/-- The per-student completion percentage as the specification words it:
present-equivalent days over the days on which the person has any record.
Written from the wording of the spec, to be compared with the source. -/
def specStudentCompletion (att : List (Nat × Code)) : ℤ :=
  let daysWithRecord := (att.map Prod.fst).dedup.length
  if daysWithRecord = 0 then 0
  else jsRound (((presentDays att : ℚ) / daysWithRecord) * 100)

/-- The aggregate percentage of one student in the classroom report
detail view (src/unnamed/part_007 lines 81-90): present-equivalent rows
over all of the student's rows, 0 when the student has none. -/
def getAggregateAttendance (records : List AttRecord) (sid : String) : ℤ :=
  let studentRecords := records.filter (fun a => decide (a.student_id = sid))
  if studentRecords.length = 0 then 0
  else jsRound (((presentCount studentRecords : ℚ) / studentRecords.length) * 100)

/-- Family relation tags of the meeting domain
(src/components/MeetingAttendanceSheet.tsx line 26). -/
inductive FamilyMemberType where
  | padre
  | madre
  | otro_familiar
deriving DecidableEq

/-- An in-memory meeting attendance entry
(src/components/MeetingAttendanceSheet.tsx lines 28-33). -/
structure MeetingEntry where
  studentId : String
  attended : Bool
  familyMember : FamilyMemberType
  otherFamilyMemberName : String
deriving DecidableEq

/-- A stored row of the meeting_attendance table
(src/components/MeetingAttendanceSheet.tsx lines 256-262). -/
structure MeetingRow where
  meeting_id : String
  student_id : String
  family_member_type : FamilyMemberType
  other_family_member_name : Option String
  attended_at : Nat
deriving DecidableEq

/-- The row built from one attended entry
(src/components/MeetingAttendanceSheet.tsx lines 256-262). -/
def toMeetingRow (mid : String) (now : Nat) (r : MeetingEntry) : MeetingRow :=
  { meeting_id := mid
    student_id := r.studentId
    family_member_type := r.familyMember
    other_family_member_name :=
      if r.familyMember = .otro_familiar then some r.otherFamilyMemberName else none
    attended_at := now }

/-- saveAttendance of the meeting sheet
(src/components/MeetingAttendanceSheet.tsx lines 242-280): first delete
every stored row of the meeting, then insert one row per attended entry,
skipping the insert when no entry is attended.  There is no emptiness
check and no failure path. -/
def saveMeetingAttendance (store : List MeetingRow) (mid : String)
    (attendance : List MeetingEntry) (now : Nat) : List MeetingRow :=
  let afterDelete := store.filter (fun r => decide (¬ r.meeting_id = mid))
  let records := (attendance.filter (fun r => r.attended)).map (toMeetingRow mid now)
  if records.length > 0 then afterDelete ++ records else afterDelete

/-- Concrete row used by several evaluations below. -/
def rowA : AttRecord :=
  { student_id := "s1", classroom_id := "c1", date := 1, status := .PRESENT,
    attendance_type_id := 1, notes := none, created_by := none }

/-- Concrete row with the same student and date as rowA but another
classroom. -/
def rowB : AttRecord :=
  { student_id := "s1", classroom_id := "c2", date := 1, status := .ABSENT,
    attendance_type_id := 3, notes := none, created_by := none }

theorem map_recKey_replace (store : List AttRecord) (r : AttRecord) :
    (store.map (fun s => if recKey s = recKey r then r else s)).map recKey =
      store.map recKey := by
  rw [List.map_map]
  apply List.map_congr_left
  intro s _
  by_cases h : recKey s = recKey r
  · simp [h]
  · simp [h]

theorem keysNodup_upsertOne {store : List AttRecord} (r : AttRecord)
    (h : (store.map recKey).Nodup) : ((upsertOne store r).map recKey).Nodup := by
  unfold upsertOne
  split
  · rw [map_recKey_replace]
    exact h
  · rename_i hany
    have hnot : recKey r ∉ store.map recKey := by
      intro hmem
      obtain ⟨s, hs, hk⟩ := List.mem_map.mp hmem
      exact hany (List.any_eq_true.mpr ⟨s, hs, by simp [hk]⟩)
    rw [List.map_append]
    exact List.Nodup.append h (List.nodup_singleton _) (by simpa using hnot)

theorem keysNodup_upsert (batch : List AttRecord) {store : List AttRecord}
    (h : (store.map recKey).Nodup) : ((upsert store batch).map recKey).Nodup := by
  induction batch generalizing store with
  | nil => exact h
  | cons a t ih => exact ih (keysNodup_upsertOne a h)

/-- A row is fixed in a store when it is present and is the unique holder
of its conflict key. -/
def rowFixed (s : List AttRecord) (r : AttRecord) : Prop :=
  r ∈ s ∧ ∀ x ∈ s, recKey x = recKey r → x = r

theorem upsertOne_eq_self_of_rowFixed {s : List AttRecord} {r : AttRecord}
    (h : rowFixed s r) : upsertOne s r = s := by
  obtain ⟨hmem, hall⟩ := h
  unfold upsertOne
  rw [if_pos (List.any_eq_true.mpr ⟨r, hmem, by simp⟩)]
  conv_rhs => rw [← List.map_id s]
  apply List.map_congr_left
  intro x hx
  by_cases hk : recKey x = recKey r
  · rw [if_pos hk]
    exact (hall x hx hk).symm
  · rw [if_neg hk]
    rfl

theorem rowFixed_upsertOne_self (s : List AttRecord) (r : AttRecord) :
    rowFixed (upsertOne s r) r := by
  unfold upsertOne
  split
  · rename_i hany
    obtain ⟨x, hx, hk⟩ := List.any_eq_true.mp hany
    have hk : recKey x = recKey r := by simpa using hk
    constructor
    · exact List.mem_map.mpr ⟨x, hx, by rw [if_pos hk]⟩
    · intro y hy hky
      obtain ⟨x2, hx2, hfx2⟩ := List.mem_map.mp hy
      by_cases h2 : recKey x2 = recKey r
      · rw [← hfx2, if_pos h2]
      · rw [← hfx2] at hky ⊢
        rw [if_neg h2] at hky ⊢
        exact absurd hky h2
  · rename_i hany
    constructor
    · simp
    · intro y hy hky
      rcases List.mem_append.mp hy with hin | hin
      · exact absurd (List.any_eq_true.mpr ⟨y, hin, by simp [hky]⟩) hany
      · simpa using hin

theorem rowFixed_upsertOne_of_ne {s : List AttRecord} {r : AttRecord}
    (r2 : AttRecord) (hne : recKey r2 ≠ recKey r) (h : rowFixed s r) :
    rowFixed (upsertOne s r2) r := by
  obtain ⟨hmem, hall⟩ := h
  unfold upsertOne
  split
  · constructor
    · exact List.mem_map.mpr ⟨r, hmem, by rw [if_neg (fun hk => hne hk.symm)]⟩
    · intro y hy hky
      obtain ⟨x, hx, hfx⟩ := List.mem_map.mp hy
      by_cases h2 : recKey x = recKey r2
      · rw [← hfx, if_pos h2] at hky
        exact absurd hky hne
      · rw [← hfx, if_neg h2] at hky ⊢
        exact hall x hx hky
  · constructor
    · exact List.mem_append_left _ hmem
    · intro y hy hky
      rcases List.mem_append.mp hy with hin | hin
      · exact hall y hin hky
      · have hy2 : y = r2 := by simpa using hin
        subst hy2
        exact absurd hky hne

theorem rowFixed_upsert_of_ne {s : List AttRecord} {r : AttRecord}
    (b : List AttRecord) (hb : ∀ x ∈ b, recKey x ≠ recKey r)
    (h : rowFixed s r) : rowFixed (upsert s b) r := by
  induction b generalizing s with
  | nil => exact h
  | cons a t ih =>
    exact ih (fun x hx => hb x (List.mem_cons_of_mem a hx))
      (rowFixed_upsertOne_of_ne a (hb a (List.mem_cons_self a t)) h)

theorem rowFixed_upsert {b : List AttRecord} (hnd : (b.map recKey).Nodup) :
    ∀ (s : List AttRecord), ∀ r ∈ b, rowFixed (upsert s b) r := by
  induction b with
  | nil =>
    intro s r hr
    exact absurd hr (List.not_mem_nil r)
  | cons a t ih =>
    intro s r hr
    have hcons : (∀ x ∈ t, ¬ recKey x = recKey a) ∧ (t.map recKey).Nodup := by
      simpa using hnd
    rcases List.mem_cons.mp hr with rfl | hrt
    · exact rowFixed_upsert_of_ne t hcons.1 (rowFixed_upsertOne_self s r)
    · exact ih hcons.2 (upsertOne s a) r hrt

theorem upsert_eq_self_of_fixed {s b : List AttRecord}
    (h : ∀ r ∈ b, rowFixed s r) : upsert s b = s := by
  induction b with
  | nil => rfl
  | cons a t ih =>
    show upsert (upsertOne s a) t = s
    rw [upsertOne_eq_self_of_rowFixed (h a (List.mem_cons_self a t))]
    exact ih (fun r hr => h r (List.mem_cons_of_mem a hr))

theorem upsert_idem {b : List AttRecord} (hnd : (b.map recKey).Nodup)
    (s : List AttRecord) : upsert (upsert s b) b = upsert s b :=
  upsert_eq_self_of_fixed (fun r hr => rowFixed_upsert hnd s r hr)

theorem buildRecords_keys (att : List (String × AttendanceStatus))
    (notes : List (String × String)) (cid : String) (date : Nat)
    (uid : Option String) :
    (buildRecords att notes cid date uid).map recKey =
      att.map (fun p => (p.1, date)) := by
  unfold buildRecords
  rw [List.map_map]
  rfl

theorem buildRecords_keys_nodup {att : List (String × AttendanceStatus)}
    (ha : (att.map Prod.fst).Nodup) (notes : List (String × String))
    (cid : String) (date : Nat) (uid : Option String) :
    ((buildRecords att notes cid date uid).map recKey).Nodup := by
  rw [buildRecords_keys]
  have hrw : att.map (fun p => (p.1, date)) =
      (att.map Prod.fst).map (fun s => (s, date)) := by
    rw [List.map_map]
    rfl
  rw [hrw]
  exact ha.map (fun a b hab => by simpa using congrArg Prod.fst hab)

/-- C1 counterexample.  The upsert of saveAttendance resolves conflicts on
(student_id, date) alone: a second save for the same student and date but
a different classroom overwrites the stored row, while an upsert whose
conflict key were subject+person+date would keep both rows.  So the
claimed conflict key subject+person+date is not the one of the code. -/
theorem C1_conflict_key_counterexample :
    upsert (upsert [] [rowA]) [rowB] = [rowB]
    ∧ upsertTriple (upsertTriple [] [rowA]) [rowB] = [rowA, rowB]
    ∧ rowA.classroom_id ≠ rowB.classroom_id := by
  refine ⟨?_, ?_, ?_⟩ <;> decide

/-- C1 (amended): the conflict key of the upsert is (personId, date) -
student_id plus date, without the subject - so a second save for the same
(subjectId, personId, date) still overwrites rather than duplicates, and
starting from a store with unique (personId, date) keys, any save keeps
the keys unique; in particular the store then holds at most one
Observation per (subjectId, personId, date). -/
theorem C1_upsert_key_invariant (store : List AttRecord)
    (att : List (String × AttendanceStatus)) (notes : List (String × String))
    (cid : String) (date : Nat) (uid : Option String) (s1 : List AttRecord)
    (hstore : (store.map recKey).Nodup)
    (h : saveAttendance store att notes cid date uid = Except.ok s1) :
    (s1.map recKey).Nodup
    ∧ s1.Pairwise (fun a b =>
        ¬(a.classroom_id = b.classroom_id ∧ a.student_id = b.student_id ∧
          a.date = b.date)) := by
  unfold saveAttendance at h
  by_cases hemp : att.length = 0
  · rw [if_pos hemp] at h
    exact absurd h (by simp)
  · rw [if_neg hemp] at h
    injection h with h1
    subst h1
    have hnd := keysNodup_upsert (buildRecords att notes cid date uid) hstore
    refine ⟨hnd, ?_⟩
    have hp : (upsert store (buildRecords att notes cid date uid)).Pairwise
        (fun a b => recKey a ≠ recKey b) := List.pairwise_map.mp hnd
    refine hp.imp ?_
    intro a b hab habc
    obtain ⟨h1, h2, h3⟩ := habc
    exact hab (by simp [recKey, h2, h3])

/-- C1 witness: the invariant applied to a concrete one-row save. -/
theorem C1_upsert_key_invariant_witness :
    (([rowA].map recKey).Nodup)
    ∧ [rowA].Pairwise (fun a b =>
        ¬(a.classroom_id = b.classroom_id ∧ a.student_id = b.student_id ∧
          a.date = b.date)) :=
  C1_upsert_key_invariant [] [("s1", .PRESENT)] [] "c1" 1 none [rowA]
    (by decide) (by rfl)

/-- C2 counterexample: saveAttendance performs no date validation, so a
save for a date strictly beyond today (here date 11 with today 10)
succeeds and commits the row, instead of failing with an InvalidDate
condition. -/
theorem C2_future_save_counterexample :
    (10 : Nat) < 11
    ∧ saveAttendance [] [("s1", AttendanceStatus.PRESENT)] [] "c1" 11 (some "u1") =
        Except.ok [{ student_id := "s1", classroom_id := "c1", date := 11,
                     status := .PRESENT, attendance_type_id := 1, notes := none,
                     created_by := some "u1" }] := by
  exact ⟨by norm_num, rfl⟩

/-- C2 (amended): forward navigation is clamped to today - from a date
not beyond today goToNextDay never yields a date beyond today, and when
the next day would pass today it silently returns the selected date
unchanged, with no error condition of any kind; saveAttendance applies no
date bound at all, so any save with a nonempty set succeeds whatever its
date, future dates included. -/
theorem C2_no_invalid_date (d t : Nat) (h : d ≤ t) :
    goToNextDay d t ≤ t
    ∧ (t < d + 1 → goToNextDay d t = d)
    ∧ (d + 1 ≤ t → goToNextDay d t = d + 1)
    ∧ ∀ (store : List AttRecord) (att : List (String × AttendanceStatus))
        (notes : List (String × String)) (cid : String) (date : Nat)
        (uid : Option String), att ≠ [] →
        saveAttendance store att notes cid date uid =
          Except.ok (upsert store (buildRecords att notes cid date uid)) := by
  refine ⟨?_, ?_, ?_, ?_⟩
  · simp only [goToNextDay]
    split <;> omega
  · intro h2
    simp only [goToNextDay]
    split <;> omega
  · intro h2
    simp only [goToNextDay]
    split <;> omega
  · intro store att notes cid date uid hne
    have hlen : ¬ att.length = 0 := fun hh => hne (List.length_eq_zero.mp hh)
    simp [saveAttendance, hlen]

/-- C2 witness: at today itself, the next-day arrow leaves the date
unchanged, and a concrete nonempty save succeeds. -/
theorem C2_no_invalid_date_witness :
    goToNextDay 5 5 = 5
    ∧ saveAttendance [] [("s1", AttendanceStatus.PRESENT)] [] "c1" 1 none =
        Except.ok (upsert [] (buildRecords [("s1", AttendanceStatus.PRESENT)] [] "c1" 1 none)) :=
  ⟨(C2_no_invalid_date 5 5 (by decide)).2.1 (by decide),
   (C2_no_invalid_date 5 5 (by decide)).2.2.2 [] [("s1", AttendanceStatus.PRESENT)]
     [] "c1" 1 none (by decide)⟩

/-- C3: saving an empty attendance set fails with the
EmptyObservationSet condition surfaced to the caller, and no upsert is
issued - the result carries no new store state, so the stored rows are
untouched. -/
theorem C3_empty_save_fails (store : List AttRecord)
    (notes : List (String × String)) (cid : String) (date : Nat)
    (uid : Option String) :
    saveAttendance store [] notes cid date uid =
      Except.error SaveError.EmptyObservationSet := rfl

/-- C8: saving the same attendance set twice in succession yields the
same stored state as saving it once - the second save replaces every row
with identical values and appends none. -/
theorem C8_save_idempotent (store : List AttRecord)
    (att : List (String × AttendanceStatus)) (notes : List (String × String))
    (cid : String) (date : Nat) (uid : Option String) (s1 : List AttRecord)
    (ha : (att.map Prod.fst).Nodup)
    (h : saveAttendance store att notes cid date uid = Except.ok s1) :
    saveAttendance s1 att notes cid date uid = Except.ok s1 := by
  unfold saveAttendance at h ⊢
  by_cases hemp : att.length = 0
  · rw [if_pos hemp] at h
    exact absurd h (by simp)
  · rw [if_neg hemp] at h ⊢
    injection h with h1
    subst h1
    rw [upsert_idem (buildRecords_keys_nodup ha notes cid date uid)]

/-- C8 witness: idempotence applied to a concrete one-row save. -/
theorem C8_save_idempotent_witness :
    saveAttendance [rowA] [("s1", .PRESENT)] [] "c1" 1 none =
      Except.ok [rowA] :=
  C8_save_idempotent [] [("s1", .PRESENT)] [] "c1" 1 none [rowA]
    (by decide) (by rfl)

/-- C9: markAllPresent replaces the whole in-memory map by exactly one
PRESENT entry per enrolled student, in the students' order, discarding
whatever was set before. -/
theorem C9_mark_all_present (prev prev2 : List (String × AttendanceStatus))
    (students : List String) :
    (markAllPresent prev students).map Prod.fst = students
    ∧ (markAllPresent prev students).length = students.length
    ∧ (∀ e ∈ markAllPresent prev students, e.2 = AttendanceStatus.PRESENT)
    ∧ markAllPresent prev students = markAllPresent prev2 students := by
  refine ⟨?_, ?_, ?_, rfl⟩
  · simp only [markAllPresent, List.map_map]
    exact List.map_id'' (fun x => rfl) students
  · simp [markAllPresent]
  · simp [markAllPresent]

/-- C9 witness: over 25 enrolled students the result is exactly 25
entries, all PRESENT. -/
theorem C9_mark_all_present_witness :
    (markAllPresent [] ((List.range 25).map toString)).length = 25
    ∧ ∀ e ∈ markAllPresent [] ((List.range 25).map toString),
        e.2 = AttendanceStatus.PRESENT :=
  ⟨((C9_mark_all_present [] [] ((List.range 25).map toString)).2.1).trans
      (by simp),
   (C9_mark_all_present [] [] ((List.range 25).map toString)).2.2.1⟩

theorem presentCount_add_absentCount (l : List AttRecord) :
    presentCount l + absentCount l = l.length := by
  induction l with
  | nil => rfl
  | cons a t ih =>
    cases h : a.status <;>
      simp [presentCount, absentCount, List.filter_cons, h] at ih ⊢ <;>
      omega

/-- C4: the single-day classroom statistics partition the classroom's
rows into present-equivalent (PRESENT, LATE) and absent-equivalent
(ABSENT, JUSTIFIED) buckets that exhaust the rows; the percentage is
present over present plus absent, times 100, rounded to one decimal; and
it is 0 when the classroom has no rows for the day, with no division by
zero. -/
theorem C4_single_day_stats (data : List AttRecord) (cid : String) :
    presentCount (classAtt data cid) + absentCount (classAtt data cid) =
      (classAtt data cid).length
    ∧ (classAtt data cid = [] → classroomPercentage data cid = 0)
    ∧ (classAtt data cid ≠ [] →
        classroomPercentage data cid =
          (jsRound (((presentCount (classAtt data cid) : ℚ) /
            ((presentCount (classAtt data cid) +
              absentCount (classAtt data cid) : Nat) : ℚ)) * 100 * 10) : ℚ) / 10) := by
  refine ⟨presentCount_add_absentCount _, ?_, ?_⟩
  · intro h
    simp only [classroomPercentage, h]
    norm_num [presentCount, absentCount, jsRound]
  · intro h
    have hlen : 0 < (classAtt data cid).length := List.length_pos.mpr h
    have hsum := presentCount_add_absentCount (classAtt data cid)
    have hpos : presentCount (classAtt data cid) +
        absentCount (classAtt data cid) > 0 := by omega
    simp only [classroomPercentage]
    rw [if_pos hpos]

/-- Concrete row: a second student of classroom c1, absent. -/
def rowC : AttRecord :=
  { student_id := "s2", classroom_id := "c1", date := 1, status := .ABSENT,
    attendance_type_id := 3, notes := none, created_by := none }

/-- C4 witness: one PRESENT and one ABSENT row of the same classroom
give the 50 percent scenario of the specification. -/
theorem C4_single_day_stats_witness :
    classroomPercentage [rowA, rowC] "c1" =
      (jsRound (((presentCount (classAtt [rowA, rowC] "c1") : ℚ) /
        ((presentCount (classAtt [rowA, rowC] "c1") +
          absentCount (classAtt [rowA, rowC] "c1") : Nat) : ℚ)) * 100 * 10) : ℚ) / 10 :=
  (C4_single_day_stats [rowA, rowC] "c1").2.2 (by decide)

/-- C6: Administrador and Supervisor see every classroom; any other role
sees exactly the classrooms matched by one of its assignments, by
classroom id or by level; an empty assignment list yields an empty
visible set; and a Docente whose assignments all point at classroom C1
never sees any other classroom. -/
theorem C6_visibility (role : UserRole) (assignments : List Assignment)
    (classrooms : List ClassroomInfo) :
    ((role = .Administrador ∨ role = .Supervisor) →
      visibleClassrooms role assignments classrooms = classrooms)
    ∧ (role ≠ .Administrador → role ≠ .Supervisor →
        ∀ c, c ∈ visibleClassrooms role assignments classrooms ↔
          c ∈ classrooms ∧ ∃ a ∈ assignments,
            a.classroomId = some c.id ∨ a.level = some c.level)
    ∧ (role ≠ .Administrador → role ≠ .Supervisor → assignments = [] →
        visibleClassrooms role assignments classrooms = [])
    ∧ (role ≠ .Administrador → role ≠ .Supervisor →
        (∀ a ∈ assignments, a.classroomId = some "C1" ∧ a.level = none) →
        ∀ c ∈ visibleClassrooms role assignments classrooms, c.id = "C1") := by
  have hmem : role ≠ .Administrador → role ≠ .Supervisor →
      ∀ c, c ∈ visibleClassrooms role assignments classrooms ↔
        c ∈ classrooms ∧ ∃ a ∈ assignments,
          a.classroomId = some c.id ∨ a.level = some c.level := by
    intro h1 h2 c
    have hcond : ¬(role = .Administrador ∨ role = .Supervisor) := by tauto
    simp [visibleClassrooms, hcond, List.mem_filter, List.any_eq_true]
  refine ⟨?_, hmem, ?_, ?_⟩
  · intro h
    simp [visibleClassrooms, h]
  · intro h1 h2 h3
    subst h3
    have hcond : ¬(role = .Administrador ∨ role = .Supervisor) := by tauto
    simp [visibleClassrooms, hcond]
  · intro h1 h2 hasg c hc
    obtain ⟨-, a, ha, hmatch⟩ := (hmem h1 h2 c).mp hc
    obtain ⟨hid, hlev⟩ := hasg a ha
    rcases hmatch with hm | hm
    · rw [hid] at hm
      exact (Option.some.inj hm.symm)
    · rw [hlev] at hm
      exact absurd hm (by simp)

/-- C6 witness: a Docente assigned only to classroom C1 sees no
classroom other than C1 among a concrete pair of classrooms. -/
theorem C6_visibility_witness :
    ∀ c ∈ visibleClassrooms .Docente
        [{ level := none, classroomId := some "C1" }]
        [{ id := "C1", level := .Primaria }, { id := "C2", level := .Secundaria }],
      c.id = "C1" :=
  (C6_visibility .Docente [{ level := none, classroomId := some "C1" }]
      [{ id := "C1", level := .Primaria }, { id := "C2", level := .Secundaria }]).2.2.2
    (by decide) (by decide) (by decide)

/-- C7: a report fetches exactly the rows with date equal to startDate
for a Day range, exactly the rows inside the closed interval for a
Custom range with an end date, and exactly the rows with date at least
startDate, with no upper bound, for Week, Bimester and Semester. -/
theorem C7_range_fetch (store : List AttRecord) (range : RangeKind)
    (startDate : Nat) (endDate : Option Nat) (r : AttRecord) :
    (range = .Dia →
      (r ∈ fetchAttendanceForRange store range startDate endDate ↔
        r ∈ store ∧ r.date = startDate))
    ∧ (∀ e, range = .Personalizado → endDate = some e →
      (r ∈ fetchAttendanceForRange store range startDate endDate ↔
        r ∈ store ∧ startDate ≤ r.date ∧ r.date ≤ e))
    ∧ ((range = .Semana ∨ range = .Bimestre ∨ range = .Semestre) →
      (r ∈ fetchAttendanceForRange store range startDate endDate ↔
        r ∈ store ∧ startDate ≤ r.date)) := by
  refine ⟨?_, ?_, ?_⟩
  · rintro rfl
    simp [fetchAttendanceForRange, dateFilter, List.mem_filter]
  · rintro e rfl rfl
    simp [fetchAttendanceForRange, dateFilter, List.mem_filter, and_assoc]
  · rintro (rfl | rfl | rfl) <;>
      simp [fetchAttendanceForRange, dateFilter, List.mem_filter]

/-- C7 witness: a one-day fetch at the concrete row's date. -/
theorem C7_range_fetch_witness :
    rowA ∈ fetchAttendanceForRange [rowA] .Dia 1 none ↔
      rowA ∈ [rowA] ∧ rowA.date = 1 :=
  (C7_range_fetch [rowA] .Dia 1 none rowA).1 rfl

/-- C10: the meeting-attendance save first deletes every stored row of
the meeting and then inserts one row per attended entry: afterwards the
rows of the meeting are exactly the attended entries, rows of other
meetings are untouched, and a save with zero attended entries simply
leaves the store without any row for the meeting - it completes without
any emptiness failure. -/
theorem C10_meeting_save (store : List MeetingRow) (mid : String)
    (att : List MeetingEntry) (now : Nat) :
    ((saveMeetingAttendance store mid att now).filter
        (fun r => decide (r.meeting_id = mid)) =
      (att.filter (fun r => r.attended)).map (toMeetingRow mid now))
    ∧ ((saveMeetingAttendance store mid att now).filter
        (fun r => decide (¬ r.meeting_id = mid)) =
      store.filter (fun r => decide (¬ r.meeting_id = mid)))
    ∧ (att.filter (fun r => r.attended) = [] →
        saveMeetingAttendance store mid att now =
          store.filter (fun r => decide (¬ r.meeting_id = mid))) := by
  have hsave : saveMeetingAttendance store mid att now =
      if ((att.filter (fun r => r.attended)).map (toMeetingRow mid now)).length > 0
      then store.filter (fun r => decide (¬ r.meeting_id = mid)) ++
        (att.filter (fun r => r.attended)).map (toMeetingRow mid now)
      else store.filter (fun r => decide (¬ r.meeting_id = mid)) := rfl
  have hRmid : ∀ x ∈ (att.filter (fun r => r.attended)).map (toMeetingRow mid now),
      x.meeting_id = mid := by
    intro x hx
    obtain ⟨e, he, hex⟩ := List.mem_map.mp hx
    rw [← hex]
    rfl
  have hDmid : ∀ x ∈ store.filter (fun r => decide (¬ r.meeting_id = mid)),
      ¬ x.meeting_id = mid := by
    intro x hx
    simpa using (List.mem_filter.mp hx).2
  have hDfilterPos : (store.filter (fun r => decide (¬ r.meeting_id = mid))).filter
      (fun r => decide (r.meeting_id = mid)) = [] :=
    List.filter_eq_nil_iff.mpr (fun x hx => by simpa using hDmid x hx)
  have hDfilterNeg : (store.filter (fun r => decide (¬ r.meeting_id = mid))).filter
      (fun r => decide (¬ r.meeting_id = mid)) =
      store.filter (fun r => decide (¬ r.meeting_id = mid)) :=
    List.filter_eq_self.mpr (fun x hx => by simpa using hDmid x hx)
  have hRfilterPos : ((att.filter (fun r => r.attended)).map (toMeetingRow mid now)).filter
      (fun r => decide (r.meeting_id = mid)) =
      (att.filter (fun r => r.attended)).map (toMeetingRow mid now) :=
    List.filter_eq_self.mpr (fun x hx => by simpa using hRmid x hx)
  have hRfilterNeg : ((att.filter (fun r => r.attended)).map (toMeetingRow mid now)).filter
      (fun r => decide (¬ r.meeting_id = mid)) = [] :=
    List.filter_eq_nil_iff.mpr (fun x hx => by simpa using hRmid x hx)
  refine ⟨?_, ?_, ?_⟩
  · rw [hsave]
    by_cases hlen :
        ((att.filter (fun r => r.attended)).map (toMeetingRow mid now)).length > 0
    · rw [if_pos hlen, List.filter_append, hDfilterPos, hRfilterPos, List.nil_append]
    · rw [if_neg hlen, hDfilterPos,
        List.length_eq_zero.mp (Nat.eq_zero_of_not_pos hlen)]
  · rw [hsave]
    by_cases hlen :
        ((att.filter (fun r => r.attended)).map (toMeetingRow mid now)).length > 0
    · rw [if_pos hlen, List.filter_append, hDfilterNeg, hRfilterNeg, List.append_nil]
    · rw [if_neg hlen, hDfilterNeg]
  · intro h0
    rw [hsave, h0]
    simp

theorem jsRound_eq_of {q : ℚ} {n : ℤ} (h1 : (n : ℚ) ≤ q + 1 / 2)
    (h2 : q + 1 / 2 < n + 1) : jsRound q = n := by
  unfold jsRound
  rw [Int.floor_eq_iff]
  exact ⟨h1, h2⟩

theorem hasRecord_eq (att : List (Nat × Code)) (d : Nat) :
    hasRecord att d = decide (d ∈ att.map Prod.fst) := by
  by_cases h : d ∈ att.map Prod.fst
  · rw [decide_eq_true h]
    obtain ⟨p, hp, hpd⟩ := List.mem_map.mp h
    exact List.any_eq_true.mpr ⟨p, hp, by simp [hpd]⟩
  · rw [decide_eq_false h]
    refine List.any_eq_false.mpr ?_
    intro p hp hpd
    exact h (List.mem_map.mpr ⟨p, hp, by simpa using hpd⟩)

theorem length_filter_mem_comm {days K : List Nat} (hd : days.Nodup)
    (hk : K.Nodup) :
    (days.filter (fun d => decide (d ∈ K))).length =
      (K.filter (fun x => decide (x ∈ days))).length := by
  have h1 : (days.filter (fun d => decide (d ∈ K))).length =
      (days.toFinset ∩ K.toFinset).card := by
    rw [← List.toFinset_card_of_nodup (hd.filter _), List.toFinset_filter]
    congr 1
    ext a
    simp [List.mem_toFinset]
  have h2 : (K.filter (fun x => decide (x ∈ days))).length =
      (K.toFinset ∩ days.toFinset).card := by
    rw [← List.toFinset_card_of_nodup (hk.filter _), List.toFinset_filter]
    congr 1
    ext a
    simp [List.mem_toFinset]
  rw [h1, h2, Finset.inter_comm]

theorem totalPossible_eq {days : List Nat} {att : List (Nat × Code)}
    (hd : days.Nodup) (ha : (att.map Prod.fst).Nodup) :
    totalPossible days att =
      (att.filter (fun p => decide (p.1 ∈ days))).length := by
  unfold totalPossible
  rw [List.filter_congr (fun d _ => hasRecord_eq att d),
    length_filter_mem_comm hd ha, List.filter_map, List.length_map]
  rfl

/-- C5 (amended): the original per-student formula - present-equivalent
days over the days on which that person has any record, times 100,
rounded, and 0 with no records - holds as stated in the classroom report
detail view, where getAggregateAttendance divides by all of the
student's rows in range (unique per date, hence exactly the days with a
record, never the full calendar span); in the bimester report the
denominator instead counts only the weekday-axis days on which the
student has a record, so there the formula holds whenever every record
falls on an axis day - the normal case, since classes are recorded on
weekdays - while a record on an excluded weekend day counts in the
numerator but not the denominator. -/
theorem C5_per_student_pct (days : List Nat) (att : List (Nat × Code))
    (hd : days.Nodup) (ha : (att.map Prod.fst).Nodup) :
    bimesterPct days att =
      (if (att.filter (fun p => decide (p.1 ∈ days))).length = 0 then 0
       else jsRound (((presentDays att : ℚ) /
         (((att.filter (fun p => decide (p.1 ∈ days))).length : Nat) : ℚ)) * 100))
    ∧ ((∀ p ∈ att, p.1 ∈ days) → att ≠ [] →
        bimesterPct days att =
          jsRound (((presentDays att : ℚ) / ((att.length : Nat) : ℚ)) * 100))
    ∧ (∀ (records : List AttRecord) (sid : String),
        ((records.filter (fun a => decide (a.student_id = sid))).map
          (fun r => r.date)).Nodup →
        (records.filter (fun a => decide (a.student_id = sid)) = [] →
          getAggregateAttendance records sid = 0)
        ∧ (records.filter (fun a => decide (a.student_id = sid)) ≠ [] →
          getAggregateAttendance records sid =
            jsRound (((presentCount
                (records.filter (fun a => decide (a.student_id = sid))) : ℚ) /
              (((((records.filter (fun a => decide (a.student_id = sid))).map
                (fun r => r.date)).dedup.length : Nat)) : ℚ)) * 100))) := by
  have key := totalPossible_eq hd ha
  refine ⟨?_, ?_, ?_⟩
  · unfold bimesterPct
    rw [key]
    by_cases h : (att.filter (fun p => decide (p.1 ∈ days))).length = 0
    · simp [h]
    · rw [if_neg h, if_pos (Nat.pos_of_ne_zero h)]
  · intro hsub hne
    have hfil : att.filter (fun p => decide (p.1 ∈ days)) = att :=
      List.filter_eq_self.mpr (fun p hp => decide_eq_true (hsub p hp))
    unfold bimesterPct
    rw [key, hfil, if_pos (List.length_pos.mpr hne)]
  · intro records sid hnd
    have hded : ((records.filter (fun a => decide (a.student_id = sid))).map
        (fun r => r.date)).dedup.length =
        (records.filter (fun a => decide (a.student_id = sid))).length := by
      rw [hnd.dedup, List.length_map]
    constructor
    · intro h0
      unfold getAggregateAttendance
      rw [h0]
      rfl
    · intro hne
      have hlen : ¬ (records.filter (fun a => decide (a.student_id = sid))).length = 0 :=
        fun hh => hne (List.length_eq_zero.mp hh)
      unfold getAggregateAttendance
      rw [if_neg hlen, hded]

/-- C5 witness: ten recorded weekdays, nine of them present-equivalent,
give the 90 percent scenario of the specification in the bimester
report, and the classroom report detail aggregate realizes the original
formula at a concrete student. -/
theorem C5_per_student_pct_witness :
    (bimesterPct [1, 2, 3, 4, 5, 8, 9, 10, 11, 12]
        [(1, Code.P), (2, Code.P), (3, Code.P), (4, Code.P), (5, Code.P),
         (8, Code.P), (9, Code.P), (10, Code.T), (11, Code.P), (12, Code.F)] =
      jsRound (((presentDays
          [(1, Code.P), (2, Code.P), (3, Code.P), (4, Code.P), (5, Code.P),
           (8, Code.P), (9, Code.P), (10, Code.T), (11, Code.P), (12, Code.F)] : ℚ) /
        ((List.length
          [(1, Code.P), (2, Code.P), (3, Code.P), (4, Code.P), (5, Code.P),
           (8, Code.P), (9, Code.P), (10, Code.T), (11, Code.P), (12, Code.F)] : Nat) : ℚ)) * 100))
    ∧ getAggregateAttendance [rowA, rowC] "s1" =
        jsRound (((presentCount
            ([rowA, rowC].filter (fun a => decide (a.student_id = "s1"))) : ℚ) /
          ((((([rowA, rowC].filter (fun a => decide (a.student_id = "s1"))).map
            (fun r => r.date)).dedup.length : Nat)) : ℚ)) * 100) :=
  ⟨(C5_per_student_pct [1, 2, 3, 4, 5, 8, 9, 10, 11, 12]
      [(1, Code.P), (2, Code.P), (3, Code.P), (4, Code.P), (5, Code.P),
       (8, Code.P), (9, Code.P), (10, Code.T), (11, Code.P), (12, Code.F)]
      (by decide) (by decide)).2.1 (by decide) (by decide),
   ((C5_per_student_pct [1, 2, 3, 4, 5, 8, 9, 10, 11, 12]
      [(1, Code.P), (2, Code.P), (3, Code.P), (4, Code.P), (5, Code.P),
       (8, Code.P), (9, Code.P), (10, Code.T), (11, Code.P), (12, Code.F)]
      (by decide) (by decide)).2.2 [rowA, rowC] "s1" (by decide)).2 (by decide)⟩

/-- C5 counterexample: a student whose only record in range falls on an
excluded weekend day (day 6 of the range from day 1 to day 7, whose
weekday axis keeps only days 1 to 5).  The record lies in the fetched
range and is present-equivalent, so the claimed formula - present days
over days with any record - gives 100, but the bimester report shows 0:
the denominator counts only weekday-axis days carrying a record. -/
theorem C5_weekend_counterexample :
    ((1 : Nat) ≤ 6 ∧ (6 : Nat) ≤ 7)
    ∧ weekdayAxis 1 7 = [1, 2, 3, 4, 5]
    ∧ specStudentCompletion [(6, Code.P)] = 100
    ∧ bimesterPct (weekdayAxis 1 7) [(6, Code.P)] = 0 := by
  refine ⟨by decide, by decide, ?_, ?_⟩
  · have hded : (List.map Prod.fst [(6, Code.P)]).dedup = [6] := by decide
    unfold specStudentCompletion
    rw [hded]
    norm_num [presentDays]
    exact jsRound_eq_of (by norm_num) (by norm_num)
  · have ht : totalPossible (weekdayAxis 1 7) [(6, Code.P)] = 0 := by decide
    unfold bimesterPct
    rw [ht]
    norm_num

/-- Concrete stored meeting row used by the C10 witness. -/
def meetRow1 : MeetingRow :=
  { meeting_id := "m1", student_id := "s1", family_member_type := .padre,
    other_family_member_name := none, attended_at := 0 }

/-- C10 witness: a save with zero attended entries deletes the stored
row of the meeting and completes. -/
theorem C10_meeting_save_witness :
    saveMeetingAttendance [meetRow1] "m1"
        [{ studentId := "s1", attended := false, familyMember := .padre,
           otherFamilyMemberName := "" }] 5 =
      [meetRow1].filter (fun r => decide (¬ r.meeting_id = "m1")) :=
  (C10_meeting_save [meetRow1] "m1"
      [{ studentId := "s1", attended := false, familyMember := .padre,
         otherFamilyMemberName := "" }] 5).2.2 (by decide)
